import Mathlib

/-!
Verification of the CAM Automation local API server
(`src/services/local-api-server.js`) against its natural-language
specification.

Embedding conventions:
* Timestamps are modelled as natural numbers (milliseconds since the epoch).
  The server stores ISO-8601 strings produced by `new Date().toISOString()`
  and compares them through `new Date(...)`; for the values the server
  produces this is order-isomorphic to the numeric clock, so a `Nat` clock
  is a faithful shallow embedding.
* Every `new Date()` call made while serving a single request is modelled as
  the same instant `now`, passed as an explicit parameter.
* The fractional fields of the mocked extraction payload (`interest_rate`,
  `confidence`) are modelled as rationals.
* JavaScript `Map` objects (`camDocuments`, `workflows`) are modelled as
  association lists in insertion order: `Map.set` replaces an existing key in
  place and appends a fresh key at the end, and `Map.values()` iterates in
  insertion order.
* Fallible route handlers return `Except ApiError r × ServerState`: the
  result sent to the client together with the store state after the request.
-/

/-- Error responses a route handler can produce (`res.status(400/404)`). -/
inductive ApiError where
  | badRequest (message : String)
  | notFound (message : String)
deriving DecidableEq, Repr

/-- The `extractedData` payload of `mockProcessCAMDocument`. -/
structure ExtractedData where
  borrower_name : String
  loan_amount : Int
  loan_term : Nat
  interest_rate : ℚ
  loan_type : String
  jurisdiction : String
  collateral : String
deriving DecidableEq, Repr

/-- The `validationResults` payload of `mockProcessCAMDocument`. -/
structure ValidationResults where
  isValid : Bool
  errors : List String
  warnings : List String
deriving DecidableEq, Repr

/-- A legal form catalog entry as produced by `mockLegalFormMatching`. -/
structure FormRef where
  formId : String
  formName : String
  templatePath : String
  jurisdiction : String
  priority : Nat
  requiredApprovals : List String
deriving DecidableEq, Repr

/-- A stored CAM document record. `matchedForms = none` models the absence of
the `matchedForms` property before the first completed status observation. -/
structure CamDocument where
  documentId : String
  fileName : String
  fileSize : Nat
  uploadedAt : Nat
  status : String
  extractedData : ExtractedData
  confidence : ℚ
  validationResults : ValidationResults
  matchedForms : Option (List FormRef) := none
deriving DecidableEq, Repr

/-- The `FORM_A_LARGE` catalog entry (inlined literal in the source). -/
def formALarge : FormRef :=
  { formId := "FORM_A_LARGE"
    formName := "Large Commercial Loan Agreement"
    templatePath := "templates/large-commercial-loan.docx"
    jurisdiction := "New York"
    priority := 1
    requiredApprovals := ["Senior Credit Officer", "Legal Counsel", "Risk Manager"] }

/-- The `FORM_B_COMPLIANCE` catalog entry. -/
def formBCompliance : FormRef :=
  { formId := "FORM_B_COMPLIANCE"
    formName := "High-Value Compliance Form"
    templatePath := "templates/high-value-compliance.docx"
    jurisdiction := "Federal"
    priority := 2
    requiredApprovals := ["Compliance Officer"] }

/-- The `FORM_STANDARD_COMMERCIAL` catalog entry. -/
def formStandardCommercial : FormRef :=
  { formId := "FORM_STANDARD_COMMERCIAL"
    formName := "Standard Commercial Loan Agreement"
    templatePath := "templates/standard-commercial.docx"
    jurisdiction := "New York"
    priority := 1
    requiredApprovals := ["Credit Officer", "Legal Review"] }

/-- The `FORM_SMALL_BUSINESS` catalog entry. -/
def formSmallBusiness : FormRef :=
  { formId := "FORM_SMALL_BUSINESS"
    formName := "Small Business Loan Agreement"
    templatePath := "templates/small-business.docx"
    jurisdiction := "New York"
    priority := 1
    requiredApprovals := ["Loan Officer"] }

/-- Translation of `mockLegalFormMatching(camData)`: a pure function of the
extracted loan amount selecting one of three static form bundles. -/
def mockLegalFormMatching (camData : CamDocument) : List FormRef :=
  let loanAmount := camData.extractedData.loan_amount
  if loanAmount > 10000000 then
    [formALarge, formBCompliance]
  else if loanAmount > 1000000 then
    [formStandardCommercial]
  else
    [formSmallBusiness]

/-- The constant `extractedData` payload returned by `mockProcessCAMDocument`. -/
def sampleExtractedData : ExtractedData :=
  { borrower_name := "Sample Borrower Corp"
    loan_amount := 5000000
    loan_term := 60
    interest_rate := (17 : ℚ) / 4
    loan_type := "Commercial Real Estate"
    jurisdiction := "New York"
    collateral := "Commercial Property - 123 Business Ave" }

/-- Translation of `mockProcessCAMDocument(file)`; the fresh `documentId`
(`uuidv4()`) and the clock reading are explicit parameters. -/
def mockProcessCAMDocument (fileName : String) (fileSize : Nat) (docId : String)
    (now : Nat) : CamDocument :=
  { documentId := docId
    fileName := fileName
    fileSize := fileSize
    uploadedAt := now
    status := "processing"
    extractedData := sampleExtractedData
    confidence := (92 : ℚ) / 100
    validationResults :=
      { isValid := true
        errors := []
        warnings := ["High-value loan requires additional approvals"] }
    matchedForms := none }

/-- A document record identical to the mocked one except for its loan amount;
used to exercise the form matching tiers at chosen boundary amounts. -/
def docWithAmount (a : Int) : CamDocument :=
  { mockProcessCAMDocument ("cam.pdf") 1024 ("doc-1") 0 with
    extractedData := { sampleExtractedData with loan_amount := a } }

/-- C1: form matching is a deterministic, total function of the loan amount
that never returns an empty sequence; amounts strictly above 10,000,000 get
the large-commercial agreement (priority 1) followed by the high-value
compliance form (priority 2); amounts in (1,000,000, 10,000,000] get exactly
the standard-commercial form; amounts at or below 1,000,000 get exactly the
small-business form. -/
theorem mockLegalFormMatching_tiers (d : CamDocument) :
    mockLegalFormMatching d ≠ [] ∧
    (∀ e : CamDocument, d.extractedData.loan_amount = e.extractedData.loan_amount →
      mockLegalFormMatching d = mockLegalFormMatching e) ∧
    (10000000 < d.extractedData.loan_amount →
      mockLegalFormMatching d = [formALarge, formBCompliance]) ∧
    (1000000 < d.extractedData.loan_amount → d.extractedData.loan_amount ≤ 10000000 →
      mockLegalFormMatching d = [formStandardCommercial]) ∧
    (d.extractedData.loan_amount ≤ 1000000 →
      mockLegalFormMatching d = [formSmallBusiness]) ∧
    formALarge.priority = 1 ∧ formBCompliance.priority = 2 := by
  unfold mockLegalFormMatching
  simp only
  refine ⟨?_, ?_, ?_, ?_, ?_, rfl, rfl⟩
  · split <;> [simp; split <;> simp]
  · intro e he
    rw [he]
  · intro h
    simp [h]
  · intro h1 h2
    have : ¬ 10000000 < d.extractedData.loan_amount := by omega
    simp [this, h1]
  · intro h
    have h1 : ¬ 10000000 < d.extractedData.loan_amount := by omega
    have h2 : ¬ 1000000 < d.extractedData.loan_amount := by omega
    simp [h1, h2]

/-- Witness for C1: the boundary checks of the claim, obtained by applying
the tier theorem at the concrete amounts 1,000,000, 1,000,001, 10,000,000 and
10,000,001. -/
theorem mockLegalFormMatching_tiers_witness :
    mockLegalFormMatching (docWithAmount 1000000) = [formSmallBusiness] ∧
    mockLegalFormMatching (docWithAmount 1000001) = [formStandardCommercial] ∧
    mockLegalFormMatching (docWithAmount 10000000) = [formStandardCommercial] ∧
    mockLegalFormMatching (docWithAmount 10000001) = [formALarge, formBCompliance] :=
  ⟨(mockLegalFormMatching_tiers (docWithAmount 1000000)).2.2.2.2.1 (by decide),
   (mockLegalFormMatching_tiers (docWithAmount 1000001)).2.2.2.1 (by decide) (by decide),
   (mockLegalFormMatching_tiers (docWithAmount 10000000)).2.2.2.1 (by decide) (by decide),
   (mockLegalFormMatching_tiers (docWithAmount 10000001)).2.2.1 (by decide)⟩

/-- An audit log entry as pushed onto the `auditLogs` array. Entries that do
not carry a `documentId` or `workflowId` leave the field `none`. -/
structure AuditEntry where
  timestamp : Nat
  action : String
  userId : String
  details : String
  documentId : Option String := none
  workflowId : Option String := none
deriving DecidableEq, Repr

/-- One step of a maker-checker workflow. Fields the source only sets on some
steps (`completedAt`, `assignedTo`, `decision`, `comments`) are optional. -/
structure WorkflowStep where
  stepId : String
  status : String
  completedAt : Option Nat := none
  assignedTo : Option String := none
  decision : Option String := none
  comments : Option String := none
deriving DecidableEq, Repr

/-- A maker-checker workflow record. -/
structure Workflow where
  workflowId : String
  documentId : String
  checkerEmail : String
  status : String
  createdAt : Nat
  steps : List WorkflowStep
  decision : Option String := none
  comments : Option String := none
  decidedAt : Option Nat := none
deriving DecidableEq, Repr

/-- The in-memory stores of the server: the `camDocuments` map, the
`workflows` map (both association lists in insertion order) and the
`auditLogs` array. -/
structure ServerState where
  camDocuments : List (String × CamDocument) := []
  workflows : List (String × Workflow) := []
  auditLogs : List AuditEntry := []
deriving DecidableEq, Repr

/-- Lookup in a JavaScript `Map` modelled as an association list
(`Map.get`). -/
def mapGet {α : Type} (m : List (String × α)) (k : String) : Option α :=
  match m with
  | [] => none
  | (k1, v) :: rest => if k1 = k then some v else mapGet rest k

/-- Update in a JavaScript `Map` modelled as an association list (`Map.set`):
replaces an existing key in place, appends a fresh key at the end. -/
def mapSet {α : Type} (m : List (String × α)) (k : String) (v : α) :
    List (String × α) :=
  match m with
  | [] => [(k, v)]
  | (k1, v1) :: rest =>
    if k1 = k then (k, v) :: rest else (k1, v1) :: mapSet rest k v

theorem mapGet_mapSet_self {α : Type} (m : List (String × α)) (k : String) (v : α) :
    mapGet (mapSet m k v) k = some v := by
  induction m with
  | nil => simp [mapGet, mapSet]
  | cons p rest ih =>
    obtain ⟨k1, v1⟩ := p
    by_cases h : k1 = k
    · simp [mapGet, mapSet, h]
    · simp [mapGet, mapSet, h, ih]

theorem mapGet_mapSet_ne {α : Type} (m : List (String × α)) (k k1 : String) (v : α)
    (h : k ≠ k1) : mapGet (mapSet m k v) k1 = mapGet m k1 := by
  induction m with
  | nil => simp [mapGet, mapSet, h]
  | cons p rest ih =>
    obtain ⟨k2, v2⟩ := p
    by_cases h2 : k2 = k
    · subst h2
      simp [mapGet, mapSet, h]
    · simp only [mapSet, if_neg h2, mapGet]
      by_cases h3 : k2 = k1 <;> simp [h3, ih]

theorem mapGet_mem {α : Type} {m : List (String × α)} {k : String} {v : α}
    (h : mapGet m k = some v) : (k, v) ∈ m := by
  induction m with
  | nil => simp [mapGet] at h
  | cons p rest ih =>
    obtain ⟨k1, v1⟩ := p
    by_cases h1 : k1 = k
    · subst h1
      simp [mapGet] at h
      simp [h]
    · simp [mapGet, h1] at h
      exact List.mem_cons_of_mem _ (ih h)

/-- JavaScript `x || dflt` on an optional string: `undefined` and the empty
string are falsy. -/
def jsOrElse (s : Option String) (dflt : String) : String :=
  match s with
  | some v => if v = "" then dflt else v
  | none => dflt

/-- Translation of the `POST /upload` happy path: store the processed
document and push a `DOCUMENT_UPLOAD` audit entry. -/
def uploadDocument (st : ServerState) (fileName : String) (fileSize : Nat)
    (docId : String) (now : Nat) : CamDocument × ServerState :=
  let doc := mockProcessCAMDocument fileName fileSize docId now
  let entry : AuditEntry :=
    { timestamp := now
      action := "DOCUMENT_UPLOAD"
      documentId := some docId
      userId := "demo-user"
      details := "Uploaded " ++ fileName }
  (doc, { st with
            camDocuments := mapSet st.camDocuments docId doc
            auditLogs := st.auditLogs ++ [entry] })

/-- The derived progress of `GET /status/:documentId`. The source computes
`Math.min(Math.floor(elapsedMinutes * 20), 100)` with
`elapsedMinutes = (now - uploadTime) / 60000`; for `uploadedAt ≤ now` that
floor equals natural division of the elapsed milliseconds by 3000, proved in
`getStatus_progress_and_status` below. -/
def progressOf (doc : CamDocument) (now : Nat) : Nat :=
  min ((now - doc.uploadedAt) / 3000) 100

/-- The JSON body of `GET /status/:documentId`. The source builds
`{documentId, status, progress, ...document}`: the spread places every field
of the stored record after the computed `status` key, so the reported
`status` is the (possibly just updated) stored `document.status`, while
`progress` is not a stored field and survives as computed. The spread fields
are grouped in `document`. -/
structure StatusResponse where
  documentId : String
  status : String
  progress : Nat
  document : CamDocument
deriving DecidableEq, Repr

/-- Core of `GET /status/:documentId` on a found record: derive progress from
elapsed time; on the first observation of 100% progress, store the matched
forms and set the stored status to `completed`. Returns the response and the
updated stored record. -/
def getStatusStep (doc : CamDocument) (now : Nat) : StatusResponse × CamDocument :=
  let progress := progressOf doc now
  if 100 ≤ progress then
    let doc1 :=
      if doc.matchedForms.isNone then
        { doc with
            matchedForms := some (mockLegalFormMatching doc)
            status := "completed" }
      else doc
    ({ documentId := doc.documentId
       status := doc1.status
       progress := 100
       document := doc1 }, doc1)
  else
    ({ documentId := doc.documentId
       status := doc.status
       progress := progress
       document := doc }, doc)

/-- The full `GET /status/:documentId` handler: 404 on an unknown id,
otherwise `getStatusStep` with the mutated record written back in place. -/
def getStatus (st : ServerState) (documentId : String) (now : Nat) :
    Except ApiError StatusResponse × ServerState :=
  match mapGet st.camDocuments documentId with
  | none => (.error (.notFound ("Document not found")), st)
  | some doc =>
    let r := getStatusStep doc now
    (.ok r.1, { st with camDocuments := mapSet st.camDocuments documentId r.2 })

/-- One row of the `GET /documents` response. -/
structure DocumentSummary where
  documentId : String
  fileName : String
  status : String
  uploadedAt : Nat
  borrower_name : String
  loan_amount : Int
deriving DecidableEq, Repr

/-- The projection `GET /documents` applies to each stored record; `status`
is the stored field, not recomputed from the clock. -/
def summarize (doc : CamDocument) : DocumentSummary :=
  { documentId := doc.documentId
    fileName := doc.fileName
    status := doc.status
    uploadedAt := doc.uploadedAt
    borrower_name := doc.extractedData.borrower_name
    loan_amount := doc.extractedData.loan_amount }

/-- Translation of `GET /documents`: project every stored record, in `Map`
insertion order. -/
def listDocuments (st : ServerState) : List DocumentSummary :=
  st.camDocuments.map (fun p => summarize p.2)

/-- Translation of `POST /workflow/start`. A falsy (empty) `documentId` is a
400; an id absent from `camDocuments` is a 404 with no state change;
otherwise a fresh two-step workflow is stored and a `WORKFLOW_START` audit
entry pushed. -/
def startWorkflow (st : ServerState) (documentId : String)
    (checkerEmail : Option String) (wfId : String) (now : Nat) :
    Except ApiError Workflow × ServerState :=
  if documentId = "" then
    (.error (.badRequest ("Document ID is required")), st)
  else
    match mapGet st.camDocuments documentId with
    | none => (.error (.notFound ("Document not found")), st)
    | some _ =>
      let assignee := jsOrElse checkerEmail ("checker@bank.com")
      let wf : Workflow :=
        { workflowId := wfId
          documentId := documentId
          checkerEmail := assignee
          status := "pending_review"
          createdAt := now
          steps :=
            [ { stepId := "maker_submission"
                status := "completed"
                completedAt := some now },
              { stepId := "checker_review"
                status := "pending"
                assignedTo := some assignee } ] }
      let entry : AuditEntry :=
        { timestamp := now
          action := "WORKFLOW_START"
          workflowId := some wfId
          documentId := some documentId
          userId := "demo-user"
          details := "Started maker-checker workflow" }
      (.ok wf, { st with
                   workflows := mapSet st.workflows wfId wf
                   auditLogs := st.auditLogs ++ [entry] })

/-- Update of the first list element satisfying `p`: models the source
pattern `const x = list.find(p); if (x) { mutate x }`. -/
def updateFirstWhere {α : Type} (p : α → Bool) (f : α → α) : List α → List α
  | [] => []
  | x :: xs => if p x then f x :: xs else x :: updateFirstWhere p f xs

/-- The audit entry pushed by `POST /workflow/:workflowId/decision`. -/
def decisionAuditEntry (wfId decision : String) (comments : Option String)
    (now : Nat) : AuditEntry :=
  { timestamp := now
    action := "WORKFLOW_DECISION"
    workflowId := some wfId
    userId := "checker-user"
    details := "Workflow " ++ decision ++ "d: " ++ jsOrElse comments ("No comments") }

/-- The workflow record after `POST /workflow/:workflowId/decision`: status
becomes `approved` exactly when the decision string is `approve` and
`rejected` otherwise; decision, comments and decision time are overwritten;
the first `checker_review` step is marked completed with the same data. -/
def decideUpdate (wf : Workflow) (decision : String) (comments : Option String)
    (now : Nat) : Workflow :=
  { wf with
      status := if decision = "approve" then "approved" else "rejected"
      decision := some decision
      comments := comments
      decidedAt := some now
      steps := updateFirstWhere (fun s => s.stepId == "checker_review")
        (fun s => { s with
                      status := "completed"
                      decision := some decision
                      comments := comments
                      completedAt := some now }) wf.steps }

/-- Translation of `POST /workflow/:workflowId/decision`: 404 on an unknown
workflow with no state change; otherwise unconditionally apply
`decideUpdate`, write the record back and push a `WORKFLOW_DECISION` audit
entry. The source performs no validation of the decision value. -/
def decideWorkflow (st : ServerState) (wfId decision : String)
    (comments : Option String) (now : Nat) :
    Except ApiError Workflow × ServerState :=
  match mapGet st.workflows wfId with
  | none => (.error (.notFound ("Workflow not found")), st)
  | some wf =>
    let wf1 := decideUpdate wf decision comments now
    (.ok wf1, { st with
                  workflows := mapSet st.workflows wfId wf1
                  auditLogs := st.auditLogs ++ [decisionAuditEntry wfId decision comments now] })

/-- Insert an audit entry into a list sorted by descending timestamp, after
every entry with an equal or larger timestamp. -/
def insertDesc (e : AuditEntry) : List AuditEntry → List AuditEntry
  | [] => [e]
  | x :: xs => if x.timestamp < e.timestamp then e :: x :: xs else x :: insertDesc e xs

/-- The sort performed by `GET /audit`:
`filteredLogs.sort((a, b) => new Date(b.timestamp) - new Date(a.timestamp))`.
ECMAScript requires `Array.prototype.sort` with a consistent comparator to be
stable and to order the array per the comparator; any stable
descending-by-timestamp sort yields the identical list, so a left-to-right
stable insertion sort models it exactly. -/
def sortByTimestampDesc (logs : List AuditEntry) : List AuditEntry :=
  logs.foldl (fun acc e => insertDesc e acc) []

/-- Descending order by timestamp. -/
def TsSorted (l : List AuditEntry) : Prop :=
  List.Pairwise (fun a b => b.timestamp ≤ a.timestamp) l

theorem insertDesc_perm (e : AuditEntry) (l : List AuditEntry) :
    (insertDesc e l).Perm (e :: l) := by
  induction l with
  | nil => simp [insertDesc]
  | cons x xs ih =>
    unfold insertDesc
    by_cases h : x.timestamp < e.timestamp
    · simp [h]
    · simp only [if_neg h]
      exact (ih.cons x).trans (List.Perm.swap e x xs)

theorem insertDesc_mem {y e : AuditEntry} {l : List AuditEntry} :
    y ∈ insertDesc e l ↔ y = e ∨ y ∈ l := by
  rw [(insertDesc_perm e l).mem_iff]
  simp

theorem insertDesc_sorted {e : AuditEntry} {l : List AuditEntry}
    (h : TsSorted l) : TsSorted (insertDesc e l) := by
  induction l with
  | nil => simp [insertDesc, TsSorted]
  | cons x xs ih =>
    unfold TsSorted at h ⊢
    rw [List.pairwise_cons] at h
    unfold insertDesc
    by_cases hx : x.timestamp < e.timestamp
    · simp only [if_pos hx]
      rw [List.pairwise_cons]
      constructor
      · intro y hy
        rw [List.mem_cons] at hy
        rcases hy with rfl | hy
        · omega
        · have := h.1 y hy
          omega
      · exact List.pairwise_cons.mpr h
    · simp only [if_neg hx]
      rw [List.pairwise_cons]
      refine ⟨?_, ih h.2⟩
      intro y hy
      rcases insertDesc_mem.mp hy with rfl | hy
      · omega
      · exact h.1 y hy

theorem sortByTimestampDesc_perm (l : List AuditEntry) :
    (sortByTimestampDesc l).Perm l := by
  suffices h : ∀ (l acc : List AuditEntry),
      (l.foldl (fun acc e => insertDesc e acc) acc).Perm (acc ++ l) by
    simpa using h l []
  intro l
  induction l with
  | nil => simp
  | cons e l ih =>
    intro acc
    simp only [List.foldl_cons]
    have h1 := ih (insertDesc e acc)
    have h2 : (insertDesc e acc ++ l).Perm ((e :: acc) ++ l) :=
      (insertDesc_perm e acc).append_right l
    have h3 : ((e :: acc) ++ l).Perm (acc ++ e :: l) := by
      simpa using (@List.perm_middle _ e acc l).symm
    exact h1.trans (h2.trans h3)

theorem sortByTimestampDesc_sorted (l : List AuditEntry) :
    TsSorted (sortByTimestampDesc l) := by
  suffices h : ∀ (l acc : List AuditEntry), TsSorted acc →
      TsSorted (l.foldl (fun acc e => insertDesc e acc) acc) by
    exact h l [] (by simp [TsSorted])
  intro l
  induction l with
  | nil => intro acc h; simpa using h
  | cons e l ih =>
    intro acc h
    exact ih (insertDesc e acc) (insertDesc_sorted h)

/-- The conjunctive filter of `GET /audit`: an absent filter imposes no
constraint. -/
def auditMatches (action userId : Option String) (e : AuditEntry) : Bool :=
  (match action with
   | some a => e.action == a
   | none => true) &&
  (match userId with
   | some u => e.userId == u
   | none => true)

/-- Translation of `GET /audit`. `limit` defaults to 50. The handler starts
from `let filteredLogs = auditLogs` (an alias of the store array), applies
`filter` for each provided query filter (each `filter` allocates a fresh
array), then calls `sort`, which reorders its receiver in place, and `slice`.
When both filters are absent the receiver of `sort` is still the store array
itself, so the request rewrites `auditLogs` into descending-timestamp order;
with at least one filter present the store is untouched. Returns the
response (the sliced page and the `total` count) and the store state after
the request. -/
def getAudit (st : ServerState) (action userId : Option String)
    (limit : Option Nat) : (List AuditEntry × Nat) × ServerState :=
  let base := st.auditLogs
  let afterAction :=
    match action with
    | some a => base.filter (fun l => l.action == a)
    | none => base
  let afterUser :=
    match userId with
    | some u => afterAction.filter (fun l => l.userId == u)
    | none => afterAction
  let sorted := sortByTimestampDesc afterUser
  let page := sorted.take (limit.getD 50)
  let logs1 := if action.isNone && userId.isNone then sorted else st.auditLogs
  ((page, st.auditLogs.length), { st with auditLogs := logs1 })

/-- One externally triggerable operation of the server, with the fresh
identifiers and the clock reading as explicit data. -/
inductive ServerOp where
  | upload (fileName : String) (fileSize : Nat) (docId : String) (now : Nat)
  | status (documentId : String) (now : Nat)
  | listDocs
  | start (documentId : String) (checkerEmail : Option String) (wfId : String) (now : Nat)
  | decide (wfId decision : String) (comments : Option String) (now : Nat)
  | audit (action userId : Option String) (limit : Option Nat)
deriving DecidableEq, Repr

/-- The state transition of one server operation. -/
def applyOp (st : ServerState) : ServerOp → ServerState
  | .upload f s d n => (uploadDocument st f s d n).2
  | .status d n => (getStatus st d n).2
  | .listDocs => st
  | .start d c w n => (startWorkflow st d c w n).2
  | .decide w d c n => (decideWorkflow st w d c n).2
  | .audit a u l => (getAudit st a u l).2

/-- The state after a sequence of server operations. -/
def applyOps (st : ServerState) (ops : List ServerOp) : ServerState :=
  ops.foldl applyOp st

/-- The reported progress equals the derived progress in both branches of the
status handler (the completed branch hard-codes 100, which the derivation
already equals there). -/
theorem getStatusStep_fst_progress (doc : CamDocument) (now : Nat) :
    (getStatusStep doc now).1.progress = progressOf doc now := by
  unfold getStatusStep
  by_cases h : 100 ≤ progressOf doc now
  · rw [if_pos h]
    have h2 : progressOf doc now ≤ 100 := Nat.min_le_right _ _
    simp only
    omega
  · rw [if_neg h]

/-- A record whose matched forms are already populated passes through the
status handler unchanged. -/
theorem getStatusStep_of_isSome (doc : CamDocument) (now : Nat)
    (hs : doc.matchedForms.isSome = true) :
    getStatusStep doc now =
      ({ documentId := doc.documentId
         status := doc.status
         progress := progressOf doc now
         document := doc }, doc) := by
  obtain ⟨fs, hfs⟩ := Option.isSome_iff_exists.mp hs
  unfold getStatusStep
  by_cases h : 100 ≤ progressOf doc now
  · rw [if_pos h]
    have h2 : progressOf doc now ≤ 100 := Nat.min_le_right _ _
    have h3 : progressOf doc now = 100 := by omega
    simp [hfs, h3]
  · rw [if_neg h]

/-- The first status observation with full progress on a record without
matched forms stores the matching result and flips the stored status. -/
theorem getStatusStep_first_complete (doc : CamDocument) (now : Nat)
    (hn : doc.matchedForms = none) (hp : progressOf doc now = 100) :
    getStatusStep doc now =
      ({ documentId := doc.documentId
         status := "completed"
         progress := 100
         document := { doc with
                         matchedForms := some (mockLegalFormMatching doc)
                         status := "completed" } },
       { doc with
           matchedForms := some (mockLegalFormMatching doc)
           status := "completed" }) := by
  unfold getStatusStep
  rw [if_pos (by omega)]
  simp [hn]

/-- A status observation short of full progress leaves the record untouched
and reports the stored status and the derived progress. -/
theorem getStatusStep_processing (doc : CamDocument) (now : Nat)
    (hlt : progressOf doc now < 100) :
    getStatusStep doc now =
      ({ documentId := doc.documentId
         status := doc.status
         progress := progressOf doc now
         document := doc }, doc) := by
  unfold getStatusStep
  rw [if_neg (by omega)]

/-- The status handler never changes the upload time of the stored record. -/
theorem getStatusStep_snd_uploadedAt (doc : CamDocument) (now : Nat) :
    (getStatusStep doc now).2.uploadedAt = doc.uploadedAt := by
  unfold getStatusStep
  by_cases h : 100 ≤ progressOf doc now
  · rw [if_pos h]
    by_cases hn : doc.matchedForms.isNone <;> simp [hn]
  · rw [if_neg h]

/-- Updating the first element satisfying `p` with a `p`-preserving function
moves `find?` to the updated element. -/
theorem find?_updateFirstWhere {α : Type} {p : α → Bool} {f : α → α}
    (hp : ∀ a, p a = true → p (f a) = true) {l : List α} {s0 : α}
    (h : l.find? p = some s0) :
    (updateFirstWhere p f l).find? p = some (f s0) := by
  induction l with
  | nil => simp [List.find?] at h
  | cons x xs ih =>
    unfold updateFirstWhere
    by_cases hx : p x = true
    · rw [List.find?_cons_of_pos _ hx] at h
      cases h
      rw [if_pos hx]
      exact List.find?_cons_of_pos _ (hp _ hx)
    · have hx2 : p x = false := by simpa using hx
      rw [List.find?_cons_of_neg _ (by simp [hx2])] at h
      rw [if_neg (by simp [hx2])]
      rw [List.find?_cons_of_neg _ (by simp [hx2])]
      exact ih h

/-- The pending two-step workflow that `POST /workflow/start` creates at time
0 for document `doc-1` with the default checker. -/
def wfPending : Workflow :=
  { workflowId := "wf-1"
    documentId := "doc-1"
    checkerEmail := "checker@bank.com"
    status := "pending_review"
    createdAt := 0
    steps :=
      [ { stepId := "maker_submission"
          status := "completed"
          completedAt := some 0 },
        { stepId := "checker_review"
          status := "pending"
          assignedTo := some ("checker@bank.com") } ] }

/-- A store holding exactly the pending workflow `wf-1`. -/
def stWithWorkflow : ServerState := { workflows := [(("wf-1" : String), wfPending)] }

/-- C6: starting a workflow for a document id that does not resolve fails
with a not-found error and has no effect: the returned state is exactly the
input state, so no workflow record is created and no audit entry is
appended. -/
theorem startWorkflow_missing_doc_no_effect (st : ServerState) (documentId : String)
    (checkerEmail : Option String) (wfId : String) (now : Nat)
    (hne : documentId ≠ "") (hmiss : mapGet st.camDocuments documentId = none) :
    startWorkflow st documentId checkerEmail wfId now =
      (.error (.notFound ("Document not found")), st) := by
  unfold startWorkflow
  rw [if_neg hne, hmiss]

/-- Witness for C6: starting a workflow for the unknown id `doc-x` against a
store with no documents errors out and leaves the store untouched. -/
theorem startWorkflow_missing_doc_no_effect_witness :
    startWorkflow stWithWorkflow ("doc-x") none ("wf-2") 5 =
      (.error (.notFound ("Document not found")), stWithWorkflow) :=
  startWorkflow_missing_doc_no_effect stWithWorkflow ("doc-x") none ("wf-2") 5
    (by decide) rfl

/-- C5 counterexample: the decision endpoint does not validate the decision
value. Submitting the decision `frobnicate` on the pending workflow `wf-1`
succeeds (no error of any kind is produced) and mutates the workflow record,
contradicting the claim that an out-of-range decision fails with a typed
validation error and leaves the record unchanged. -/
theorem decideWorkflow_invalid_decision_counterexample :
    (decideWorkflow stWithWorkflow ("wf-1") ("frobnicate") none 5).1.isOk = true ∧
    mapGet (decideWorkflow stWithWorkflow ("wf-1") ("frobnicate") none 5).2.workflows
      ("wf-1") ≠ some wfPending ∧
    (decideWorkflow stWithWorkflow ("wf-1") ("frobnicate") none 5).2 ≠ stWithWorkflow := by
  refine ⟨by decide, by decide, by decide⟩

/-- C5 amended: for an existing workflow the decide operation accepts any
decision value; a value other than `approve` (in particular one outside
{approve, reject}) succeeds, sets the workflow status to `rejected`, records
the raw decision string and the decision time, and writes the mutated record
back into the store. -/
theorem decideWorkflow_permissive (st : ServerState) (wfId d : String)
    (c : Option String) (now : Nat) (wf : Workflow)
    (hwf : mapGet st.workflows wfId = some wf) (hd : d ≠ "approve") :
    (decideWorkflow st wfId d c now).1 = .ok (decideUpdate wf d c now) ∧
    (decideUpdate wf d c now).status = "rejected" ∧
    (decideUpdate wf d c now).decision = some d ∧
    (decideUpdate wf d c now).decidedAt = some now ∧
    mapGet (decideWorkflow st wfId d c now).2.workflows wfId =
      some (decideUpdate wf d c now) := by
  have h1 : decideWorkflow st wfId d c now =
      (.ok (decideUpdate wf d c now),
        { st with
            workflows := mapSet st.workflows wfId (decideUpdate wf d c now)
            auditLogs := st.auditLogs ++ [decisionAuditEntry wfId d c now] }) := by
    unfold decideWorkflow
    rw [hwf]
  refine ⟨by rw [h1], ?_, rfl, rfl, ?_⟩
  · simp [decideUpdate, if_neg hd]
  · rw [h1]
    exact mapGet_mapSet_self _ _ _

/-- Witness for C5 (amended): the decision `frobnicate` on the pending
workflow `wf-1` succeeds and yields a rejected, mutated record. -/
theorem decideWorkflow_permissive_witness :
    (decideWorkflow stWithWorkflow ("wf-1") ("frobnicate") none 5).1 =
      .ok (decideUpdate wfPending ("frobnicate") none 5) ∧
    (decideUpdate wfPending ("frobnicate") none 5).status = "rejected" ∧
    (decideUpdate wfPending ("frobnicate") none 5).decision = some ("frobnicate") ∧
    (decideUpdate wfPending ("frobnicate") none 5).decidedAt = some 5 ∧
    mapGet (decideWorkflow stWithWorkflow ("wf-1") ("frobnicate") none 5).2.workflows
      ("wf-1") = some (decideUpdate wfPending ("frobnicate") none 5) :=
  decideWorkflow_permissive stWithWorkflow ("wf-1") ("frobnicate") none 5 wfPending
    rfl (by decide)

/-- C2: for an existing workflow and a decision in {approve, reject}, the
decide operation produces, in one state transition, the workflow with status
`approved`/`rejected` per the decision, `decidedAt` stamped with the request
instant, the `checker_review` step completed carrying the same decision, the
same comments and the same timestamp as the workflow-level decision, and
exactly one appended `WORKFLOW_DECISION` audit entry whose details carry the
decision and the comments (the placeholder `No comments` when absent); both
the workflow status and the step status hold simultaneously in the single
returned state. -/
theorem decideWorkflow_decision_spec (st : ServerState) (wfId d : String)
    (c : Option String) (now : Nat) (wf : Workflow) (s0 : WorkflowStep)
    (hwf : mapGet st.workflows wfId = some wf)
    (hd : d = "approve" ∨ d = "reject")
    (hstep : wf.steps.find? (fun s => s.stepId == "checker_review") = some s0) :
    decideWorkflow st wfId d c now =
      (.ok (decideUpdate wf d c now),
        { st with
            workflows := mapSet st.workflows wfId (decideUpdate wf d c now)
            auditLogs := st.auditLogs ++ [decisionAuditEntry wfId d c now] }) ∧
    (decideUpdate wf d c now).status =
      (if d = "approve" then "approved" else "rejected") ∧
    (d = "approve" → (decideUpdate wf d c now).status = "approved") ∧
    (d = "reject" → (decideUpdate wf d c now).status = "rejected") ∧
    (decideUpdate wf d c now).decidedAt = some now ∧
    (decideUpdate wf d c now).decision = some d ∧
    (decideUpdate wf d c now).comments = c ∧
    (decideUpdate wf d c now).steps.find? (fun s => s.stepId == "checker_review") =
      some { s0 with
               status := "completed"
               decision := some d
               comments := c
               completedAt := some now } ∧
    (decisionAuditEntry wfId d c now).action = "WORKFLOW_DECISION" ∧
    (decisionAuditEntry wfId d c now).details =
      "Workflow " ++ d ++ "d: " ++ jsOrElse c ("No comments") := by
  refine ⟨?_, rfl, ?_, ?_, rfl, rfl, rfl, ?_, rfl, rfl⟩
  · unfold decideWorkflow
    rw [hwf]
  · intro h
    simp [decideUpdate, h]
  · intro h
    subst h
    simp [decideUpdate]
  · show (updateFirstWhere _ _ wf.steps).find? _ = _
    exact find?_updateFirstWhere (fun a ha => by simpa using ha) hstep

/-- Witness for C2: approving the pending workflow `wf-1` with a comment at
time 7 yields the approved workflow, the completed checker step with the same
data, and the decision audit entry. -/
theorem decideWorkflow_decision_spec_witness :
    decideWorkflow stWithWorkflow ("wf-1") ("approve") (some ("looks good")) 7 =
      (.ok (decideUpdate wfPending ("approve") (some ("looks good")) 7),
        { stWithWorkflow with
            workflows := mapSet stWithWorkflow.workflows ("wf-1")
              (decideUpdate wfPending ("approve") (some ("looks good")) 7)
            auditLogs := stWithWorkflow.auditLogs ++
              [decisionAuditEntry ("wf-1") ("approve") (some ("looks good")) 7] }) ∧
    (decideUpdate wfPending ("approve") (some ("looks good")) 7).status =
      (if ("approve" : String) = "approve" then "approved" else "rejected") ∧
    (("approve" : String) = "approve" →
      (decideUpdate wfPending ("approve") (some ("looks good")) 7).status = "approved") ∧
    (("approve" : String) = "reject" →
      (decideUpdate wfPending ("approve") (some ("looks good")) 7).status = "rejected") ∧
    (decideUpdate wfPending ("approve") (some ("looks good")) 7).decidedAt = some 7 ∧
    (decideUpdate wfPending ("approve") (some ("looks good")) 7).decision =
      some ("approve") ∧
    (decideUpdate wfPending ("approve") (some ("looks good")) 7).comments =
      some ("looks good") ∧
    (decideUpdate wfPending ("approve") (some ("looks good")) 7).steps.find?
        (fun s => s.stepId == "checker_review") =
      some { stepId := "checker_review"
             status := "completed"
             assignedTo := some ("checker@bank.com")
             decision := some ("approve")
             comments := some ("looks good")
             completedAt := some 7 } ∧
    (decisionAuditEntry ("wf-1") ("approve") (some ("looks good")) 7).action =
      "WORKFLOW_DECISION" ∧
    (decisionAuditEntry ("wf-1") ("approve") (some ("looks good")) 7).details =
      "Workflow " ++ "approve" ++ "d: " ++ jsOrElse (some ("looks good")) ("No comments") :=
  decideWorkflow_decision_spec stWithWorkflow ("wf-1") ("approve")
    (some ("looks good")) 7 wfPending
    { stepId := "checker_review", status := "pending", assignedTo := some ("checker@bank.com") }
    rfl (Or.inl rfl) (by decide)

/-- The workflow stored under `wfId`, if any, is not pending review. -/
def NotPendingAt (st : ServerState) (wfId : String) : Prop :=
  ∀ wf, mapGet st.workflows wfId = some wf → wf.status ≠ "pending_review"

/-- The decided status is one of the two terminal strings, never
`pending_review`. -/
theorem decideUpdate_status_ne_pending (wf : Workflow) (d : String)
    (c : Option String) (now : Nat) :
    (decideUpdate wf d c now).status ≠ "pending_review" := by
  unfold decideUpdate
  by_cases h : d = "approve" <;> simp [h]

/-- The status handler never touches the workflow store. -/
theorem getStatus_snd_workflows (st : ServerState) (d : String) (n : Nat) :
    (getStatus st d n).2.workflows = st.workflows := by
  unfold getStatus
  split <;> rfl

/-- Starting a workflow either changes nothing or writes exactly under the
requested workflow id. -/
theorem startWorkflow_snd_workflows (st : ServerState) (d : String)
    (c : Option String) (w : String) (n : Nat) :
    (startWorkflow st d c w n).2.workflows = st.workflows ∨
    ∃ wfNew, (startWorkflow st d c w n).2.workflows = mapSet st.workflows w wfNew := by
  unfold startWorkflow
  split
  · exact Or.inl rfl
  · split
    · exact Or.inl rfl
    · exact Or.inr ⟨_, rfl⟩

/-- Deciding a workflow either changes nothing (unknown id) or writes the
decided record under the requested id. -/
theorem decideWorkflow_snd_workflows (st : ServerState) (w d : String)
    (c : Option String) (n : Nat) :
    (decideWorkflow st w d c n).2.workflows = st.workflows ∨
    ∃ wf0, mapGet st.workflows w = some wf0 ∧
      (decideWorkflow st w d c n).2.workflows =
        mapSet st.workflows w (decideUpdate wf0 d c n) := by
  unfold decideWorkflow
  cases hw : mapGet st.workflows w with
  | none => exact Or.inl rfl
  | some wf0 => exact Or.inr ⟨wf0, rfl, rfl⟩

/-- Single-step preservation: no server operation other than starting a
workflow under the very same id can make the record under `wfId` pending
again. -/
theorem applyOp_preserves_notPending (st : ServerState) (op : ServerOp)
    (wfId : String)
    (hop : ∀ (d1 : String) (c1 : Option String) (w1 : String) (n1 : Nat),
      op = ServerOp.start d1 c1 w1 n1 → w1 ≠ wfId)
    (h : NotPendingAt st wfId) : NotPendingAt (applyOp st op) wfId := by
  cases op with
  | upload f s d n =>
    intro wf hm
    exact h wf hm
  | status d n =>
    intro wf hm
    rw [show (applyOp st (ServerOp.status d n)).workflows = st.workflows from
      getStatus_snd_workflows st d n] at hm
    exact h wf hm
  | listDocs =>
    exact h
  | start d1 c1 w1 n1 =>
    have hw1 : w1 ≠ wfId := hop d1 c1 w1 n1 rfl
    intro wf hm
    have hm2 : mapGet (startWorkflow st d1 c1 w1 n1).2.workflows wfId = some wf := hm
    rcases startWorkflow_snd_workflows st d1 c1 w1 n1 with he | ⟨wfNew, he⟩
    · rw [he] at hm2
      exact h wf hm2
    · rw [he, mapGet_mapSet_ne _ _ _ _ hw1] at hm2
      exact h wf hm2
  | decide w1 d1 c1 n1 =>
    intro wf hm
    have hm2 : mapGet (decideWorkflow st w1 d1 c1 n1).2.workflows wfId = some wf := hm
    rcases decideWorkflow_snd_workflows st w1 d1 c1 n1 with he | ⟨wf0, hw0, he⟩
    · rw [he] at hm2
      exact h wf hm2
    · by_cases hwe : w1 = wfId
      · subst hwe
        rw [he, mapGet_mapSet_self] at hm2
        cases hm2
        exact decideUpdate_status_ne_pending wf0 d1 c1 n1
      · rw [he, mapGet_mapSet_ne _ _ _ _ hwe] at hm2
        exact h wf hm2
  | audit a u l =>
    intro wf hm
    exact h wf hm

/-- Sequence preservation of `NotPendingAt` under operations that do not
recreate the id. -/
theorem applyOps_preserves_notPending (ops : List ServerOp) (st : ServerState)
    (wfId : String)
    (hops : ∀ op ∈ ops, ∀ (d1 : String) (c1 : Option String) (w1 : String) (n1 : Nat),
      op = ServerOp.start d1 c1 w1 n1 → w1 ≠ wfId)
    (h : NotPendingAt st wfId) : NotPendingAt (applyOps st ops) wfId := by
  induction ops generalizing st with
  | nil => exact h
  | cons op ops ih =>
    exact ih (applyOp st op)
      (fun o ho => hops o (List.mem_cons_of_mem _ ho))
      (applyOp_preserves_notPending st op wfId (hops op (List.mem_cons_self _ _)) h)

/-- C10: the decide operation on any existing workflow always succeeds, for
every decision string and whatever the current status: the status becomes
`approved` exactly when the decision equals `approve` and `rejected` for any
other value, and the previously recorded decision, comments and decision time
are overwritten — so a terminal workflow can be re-decided and flipped.
Moreover no sequence of server operations (none of which starts a fresh
workflow reusing the same id) ever returns a decided workflow to
`pending_review`. -/
theorem decideWorkflow_terminal_overwrite :
    (∀ (st : ServerState) (wfId d : String) (c : Option String) (now : Nat)
        (wf : Workflow), mapGet st.workflows wfId = some wf →
      (decideWorkflow st wfId d c now).1 = .ok (decideUpdate wf d c now) ∧
      (decideUpdate wf d c now).status =
        (if d = "approve" then "approved" else "rejected") ∧
      (decideUpdate wf d c now).decision = some d ∧
      (decideUpdate wf d c now).comments = c ∧
      (decideUpdate wf d c now).decidedAt = some now ∧
      mapGet (decideWorkflow st wfId d c now).2.workflows wfId =
        some (decideUpdate wf d c now)) ∧
    (∀ (ops : List ServerOp) (st : ServerState) (wfId : String) (wf : Workflow),
      mapGet st.workflows wfId = some wf → wf.status ≠ "pending_review" →
      (∀ op ∈ ops, ∀ (d1 : String) (c1 : Option String) (w1 : String) (n1 : Nat),
        op = ServerOp.start d1 c1 w1 n1 → w1 ≠ wfId) →
      ∀ wf1, mapGet (applyOps st ops).workflows wfId = some wf1 →
        wf1.status ≠ "pending_review") := by
  constructor
  · intro st wfId d c now wf hwf
    have h1 : decideWorkflow st wfId d c now =
        (.ok (decideUpdate wf d c now),
          { st with
              workflows := mapSet st.workflows wfId (decideUpdate wf d c now)
              auditLogs := st.auditLogs ++ [decisionAuditEntry wfId d c now] }) := by
      unfold decideWorkflow
      rw [hwf]
    refine ⟨by rw [h1], rfl, rfl, rfl, rfl, ?_⟩
    rw [h1]
    exact mapGet_mapSet_self _ _ _
  · intro ops st wfId wf hwf hterm hops wf1 hm
    have hinv : NotPendingAt st wfId := by
      intro wf2 hm2
      rw [hwf] at hm2
      cases hm2
      exact hterm
    exact applyOps_preserves_notPending ops st wfId hops hinv wf1 hm

/-- The workflow `wf-1` after an earlier approval at time 3. -/
def wfApproved : Workflow :=
  { wfPending with
      status := "approved"
      decision := some ("approve")
      decidedAt := some 3 }

/-- A store holding exactly the approved workflow `wf-1`. -/
def stWithApproved : ServerState := { workflows := [(("wf-1" : String), wfApproved)] }

/-- An operation sequence that re-decides `wf-1` to `reject` and then reads
documents and the audit log. -/
def opsRedecide : List ServerOp :=
  [ ServerOp.decide ("wf-1") ("reject") (some ("changed my mind")) 9,
    ServerOp.audit none none none,
    ServerOp.listDocs ]

/-- Witness for C10: re-deciding the already approved `wf-1` with `reject`
succeeds and flips it to `rejected`, overwriting the earlier decision data;
after the sequence `opsRedecide` the stored `wf-1` is still not pending. -/
theorem decideWorkflow_terminal_overwrite_witness :
    ((decideWorkflow stWithApproved ("wf-1") ("reject") none 9).1 =
       .ok (decideUpdate wfApproved ("reject") none 9) ∧
     (decideUpdate wfApproved ("reject") none 9).status =
       (if ("reject" : String) = "approve" then "approved" else "rejected") ∧
     (decideUpdate wfApproved ("reject") none 9).decision = some ("reject") ∧
     (decideUpdate wfApproved ("reject") none 9).comments = none ∧
     (decideUpdate wfApproved ("reject") none 9).decidedAt = some 9 ∧
     mapGet (decideWorkflow stWithApproved ("wf-1") ("reject") none 9).2.workflows
       ("wf-1") = some (decideUpdate wfApproved ("reject") none 9)) ∧
    (mapGet (applyOps stWithApproved opsRedecide).workflows ("wf-1") =
       some (decideUpdate wfApproved ("reject") (some ("changed my mind")) 9) ∧
     (decideUpdate wfApproved ("reject") (some ("changed my mind")) 9).status ≠
       "pending_review") := by
  refine ⟨decideWorkflow_terminal_overwrite.1 stWithApproved ("wf-1") ("reject")
    none 9 wfApproved rfl, by decide, ?_⟩
  exact decideWorkflow_terminal_overwrite.2 opsRedecide stWithApproved ("wf-1")
    wfApproved rfl (by decide)
    (by
      intro op hop d1 c1 w1 n1 heq
      simp only [opsRedecide, List.mem_cons, List.not_mem_nil, or_false] at hop
      rcases hop with rfl | rfl | rfl <;> simp at heq)
    (decideUpdate wfApproved ("reject") (some ("changed my mind")) 9) (by decide)

/-- The freshly uploaded demo document: status `processing`, no matched
forms, uploaded at instant 0. -/
def docFresh : CamDocument := mockProcessCAMDocument ("cam.pdf") 1024 ("doc-1") 0

/-- C3: matched forms are absent while the derived status is still
processing (such an observation changes nothing), they are populated with the
form-matching result exactly at the first observation of full progress, and
an already-populated record passes through every later status call untouched
and is returned verbatim — so repeated calls after completion return the
identical matched forms with no re-matching and no duplication. -/
theorem matchedForms_lifecycle (doc : CamDocument) (now now1 : Nat) :
    (doc.matchedForms = none → progressOf doc now < 100 →
      getStatusStep doc now =
        ({ documentId := doc.documentId
           status := doc.status
           progress := progressOf doc now
           document := doc }, doc)) ∧
    (doc.matchedForms = none → progressOf doc now = 100 →
      (getStatusStep doc now).2.matchedForms = some (mockLegalFormMatching doc) ∧
      (getStatusStep doc now).1.document.matchedForms =
        some (mockLegalFormMatching doc)) ∧
    (doc.matchedForms.isSome = true →
      getStatusStep doc now1 =
        ({ documentId := doc.documentId
           status := doc.status
           progress := progressOf doc now1
           document := doc }, doc)) ∧
    (doc.matchedForms = none → progressOf doc now = 100 →
      getStatusStep ((getStatusStep doc now).2) now1 =
        ({ documentId := doc.documentId
           status := "completed"
           progress := progressOf doc now1
           document := (getStatusStep doc now).2 }, (getStatusStep doc now).2)) := by
  refine ⟨?_, ?_, ?_, ?_⟩
  · intro hn hlt
    exact getStatusStep_processing doc now hlt
  · intro hn hp
    rw [getStatusStep_first_complete doc now hn hp]
    exact ⟨rfl, rfl⟩
  · intro hs
    exact getStatusStep_of_isSome doc now1 hs
  · intro hn hp
    rw [getStatusStep_first_complete doc now hn hp]
    have hs : ({ doc with
        matchedForms := some (mockLegalFormMatching doc)
        status := "completed" } : CamDocument).matchedForms.isSome = true := rfl
    rw [getStatusStep_of_isSome _ now1 hs]
    rfl

/-- Witness for C3: the fresh demo document observed at 30 seconds (progress
10) is unchanged with no matched forms; observed at 5 minutes (progress 100)
it gains exactly the matching result; a second observation at any later time
returns the very same record. -/
theorem matchedForms_lifecycle_witness :
    getStatusStep docFresh 30000 =
      ({ documentId := docFresh.documentId
         status := docFresh.status
         progress := progressOf docFresh 30000
         document := docFresh }, docFresh) ∧
    (getStatusStep docFresh 300000).2.matchedForms =
      some (mockLegalFormMatching docFresh) ∧
    getStatusStep ((getStatusStep docFresh 300000).2) 999999 =
      ({ documentId := docFresh.documentId
         status := "completed"
         progress := progressOf docFresh 999999
         document := (getStatusStep docFresh 300000).2 },
       (getStatusStep docFresh 300000).2) :=
  ⟨(matchedForms_lifecycle docFresh 30000 0).1 rfl (by decide),
   ((matchedForms_lifecycle docFresh 300000 0).2.1 rfl (by decide)).1,
   (matchedForms_lifecycle docFresh 300000 999999).2.2.2 rfl (by decide)⟩

/-- Elapsed milliseconds divided by 3000 equal the floor of
`elapsedMinutes * 20` that the source computes over floating-point minutes,
read over the exact rationals. -/
theorem floor_minutes_times_twenty (m : Nat) :
    Nat.floor (((m : ℚ) / 60000) * 20) = m / 3000 := by
  rw [show ((m : ℚ) / 60000) * 20 = (m : ℚ) / 3000 by ring,
    show (3000 : ℚ) = ((3000 : ℕ) : ℚ) by norm_num,
    Nat.floor_div_nat, Nat.floor_natCast]

/-- C4: the reported progress is `min (floor (elapsedMinutes * 20)) 100` for
the elapsed minutes since the upload; the reported status is `completed`
exactly when the reported progress is 100; the progress is non-decreasing
across successive observations at non-decreasing times and is capped at 100.
The two record hypotheses are the registry invariants every reachable record
satisfies under a monotone clock: a record marked `completed` has already
reached full derived progress, and a record with populated matched forms is
marked `completed`. -/
theorem getStatus_progress_and_status (doc : CamDocument) (now now1 : Nat)
    (hup : doc.uploadedAt ≤ now)
    (hclock : doc.status = "completed" → 100 ≤ (now - doc.uploadedAt) / 3000)
    (hinv : doc.matchedForms.isSome = true → doc.status = "completed") :
    (getStatusStep doc now).1.progress =
      min (Nat.floor ((((now : ℚ) - (doc.uploadedAt : ℚ)) / 60000) * 20)) 100 ∧
    ((getStatusStep doc now).1.status = "completed" ↔
      (getStatusStep doc now).1.progress = 100) ∧
    (now ≤ now1 →
      (getStatusStep doc now).1.progress ≤
        (getStatusStep ((getStatusStep doc now).2) now1).1.progress) ∧
    (getStatusStep doc now).1.progress ≤ 100 := by
  have hcast : ((now : ℚ) - (doc.uploadedAt : ℚ)) = ((now - doc.uploadedAt : ℕ) : ℚ) := by
    rw [Nat.cast_sub hup]
  have hformula : (getStatusStep doc now).1.progress = progressOf doc now :=
    getStatusStep_fst_progress doc now
  refine ⟨?_, ?_, ?_, ?_⟩
  · rw [hformula, hcast, floor_minutes_times_twenty]
    rfl
  · by_cases hp : 100 ≤ progressOf doc now
    · have hp100 : progressOf doc now = 100 := by
        have := Nat.min_le_right ((now - doc.uploadedAt) / 3000) 100
        unfold progressOf at *
        omega
      cases hmf : doc.matchedForms with
      | none =>
        rw [getStatusStep_first_complete doc now hmf hp100]
        simp
      | some fs =>
        rw [getStatusStep_of_isSome doc now (by rw [hmf]; rfl)]
        have hc : doc.status = "completed" := hinv (by rw [hmf]; rfl)
        simp [hc, hp100]
    · have hlt : progressOf doc now < 100 := by omega
      rw [getStatusStep_processing doc now hlt]
      simp only
      constructor
      · intro hs
        have := hclock hs
        unfold progressOf at hlt
        omega
      · intro hs
        omega
  · intro hle
    rw [hformula, getStatusStep_fst_progress]
    unfold progressOf
    rw [getStatusStep_snd_uploadedAt]
    have hdiv : (now - doc.uploadedAt) / 3000 ≤ (now1 - doc.uploadedAt) / 3000 :=
      Nat.div_le_div_right (Nat.sub_le_sub_right hle _)
    exact min_le_min hdiv (le_refl 100)
  · rw [hformula]
    exact Nat.min_le_right _ _

/-- Witness for C4: the fresh demo document (status `processing`, both
invariant hypotheses vacuous) observed at 90 seconds and later at 5 minutes:
progress 30 equals the floored derived formula, the reported status is not
completed at progress 30, and progress is monotone and capped. -/
theorem getStatus_progress_and_status_witness :
    (getStatusStep docFresh 90000).1.progress =
      min (Nat.floor ((((90000 : ℕ) : ℚ) - ((docFresh.uploadedAt : ℕ) : ℚ)) / 60000 * 20)) 100 ∧
    ((getStatusStep docFresh 90000).1.status = "completed" ↔
      (getStatusStep docFresh 90000).1.progress = 100) ∧
    ((90000 : ℕ) ≤ 300000 →
      (getStatusStep docFresh 90000).1.progress ≤
        (getStatusStep ((getStatusStep docFresh 90000).2) 300000).1.progress) ∧
    (getStatusStep docFresh 90000).1.progress ≤ 100 :=
  getStatus_progress_and_status docFresh 90000 300000 (by decide)
    (fun hs => absurd hs (by decide)) (fun hs => absurd hs (by decide))

/-- The earlier of two audit entries, pushed first (insertion order is
chronological because each push stamps the current clock). -/
def auditEarly : AuditEntry :=
  { timestamp := 1
    action := "DOCUMENT_UPLOAD"
    userId := "demo-user"
    details := "Uploaded cam.pdf"
    documentId := some ("doc-1") }

/-- The later of two audit entries, pushed second. -/
def auditLate : AuditEntry :=
  { timestamp := 2
    action := "WORKFLOW_START"
    userId := "demo-user"
    details := "Started maker-checker workflow"
    documentId := some ("doc-1")
    workflowId := some ("wf-1") }

/-- A third, latest audit entry. -/
def auditLatest : AuditEntry :=
  { timestamp := 3
    action := "WORKFLOW_DECISION"
    userId := "checker-user"
    details := "Workflow approved: No comments"
    workflowId := some ("wf-1") }

/-- A store whose audit log holds two entries in insertion order. -/
def stTwoLogs : ServerState := { auditLogs := [auditEarly, auditLate] }

/-- C7, evaluated at the failing input: the audit query with no filters
aliases the store array and sorts it in place, so reading the log rewrites it
from insertion order `[auditEarly, auditLate]` to descending-timestamp order
`[auditLate, auditEarly]` — the log is not left unchanged for every filter
combination. With a filter present the handler works on a fresh array and the
store is untouched. -/
theorem getAudit_unfiltered_mutates_log :
    stTwoLogs.auditLogs = [auditEarly, auditLate] ∧
    (getAudit stTwoLogs none none none).2.auditLogs = [auditLate, auditEarly] ∧
    (getAudit stTwoLogs none none none).2.auditLogs ≠ stTwoLogs.auditLogs ∧
    (getAudit stTwoLogs (some ("DOCUMENT_UPLOAD")) none none).2.auditLogs =
      stTwoLogs.auditLogs ∧
    (getAudit stTwoLogs none (some ("demo-user")) none).2.auditLogs =
      stTwoLogs.auditLogs := by
  refine ⟨rfl, by decide, by decide, by decide, by decide⟩

/-- Sorting three entries with strictly increasing timestamps reverses
them. -/
theorem sortDesc_three (e1 e2 e3 : AuditEntry)
    (h12 : e1.timestamp < e2.timestamp) (h23 : e2.timestamp < e3.timestamp) :
    sortByTimestampDesc [e1, e2, e3] = [e3, e2, e1] := by
  unfold sortByTimestampDesc
  simp only [List.foldl_cons, List.foldl_nil]
  have s1 : insertDesc e1 [] = [e1] := rfl
  have s2 : insertDesc e2 [e1] = [e2, e1] := by
    unfold insertDesc
    rw [if_pos h12]
  have s3 : insertDesc e3 [e2, e1] = [e3, e2, e1] := by
    unfold insertDesc
    rw [if_pos h23]
  rw [s1, s2, s3]

/-- The page returned by the audit query is the conjunctively filtered log,
sorted by descending timestamp, truncated to the limit. -/
theorem getAudit_page_eq (st : ServerState) (action userId : Option String)
    (limit : Option Nat) :
    (getAudit st action userId limit).1.1 =
      (sortByTimestampDesc (st.auditLogs.filter (auditMatches action userId))).take
        (limit.getD 50) := by
  unfold getAudit auditMatches
  cases action with
  | none =>
    cases userId with
    | none => simp
    | some u => simp
  | some a =>
    cases userId with
    | none => simp
    | some u =>
      have hcomm : (fun x : AuditEntry => (x.userId == u) && (x.action == a)) =
          (fun x : AuditEntry => (x.action == a) && (x.userId == u)) := by
        funext x
        exact Bool.and_comm _ _
      simp only [List.filter_filter, hcomm]

/-- C8: the audit query returns only entries matching every provided filter
(conjunctive, with absent filters unconstrained), sorted by timestamp
descending, truncated to the limit (default 50); whenever the matching
entries fit within the limit the page is exactly those entries (a
permutation, arranged newest first); and for a log of three entries inserted
at increasing times, the query with limit 2 returns exactly the latest two,
newest first. -/
theorem getAudit_query_spec (st : ServerState) (action userId : Option String)
    (limit : Option Nat) :
    (∀ e ∈ (getAudit st action userId limit).1.1,
      auditMatches action userId e = true) ∧
    TsSorted (getAudit st action userId limit).1.1 ∧
    (getAudit st action userId limit).1.1.length ≤ limit.getD 50 ∧
    ((st.auditLogs.filter (auditMatches action userId)).length ≤ limit.getD 50 →
      ((getAudit st action userId limit).1.1).Perm
        (st.auditLogs.filter (auditMatches action userId))) ∧
    (∀ (e1 e2 e3 : AuditEntry),
      e1.timestamp < e2.timestamp → e2.timestamp < e3.timestamp →
      (getAudit { auditLogs := [e1, e2, e3] } none none (some 2)).1.1 = [e3, e2]) := by
  refine ⟨?_, ?_, ?_, ?_, ?_⟩
  · intro e he
    rw [getAudit_page_eq] at he
    have h1 : e ∈ sortByTimestampDesc
        (st.auditLogs.filter (auditMatches action userId)) :=
      (List.take_sublist _ _).subset he
    have h2 : e ∈ st.auditLogs.filter (auditMatches action userId) :=
      (sortByTimestampDesc_perm _).mem_iff.mp h1
    exact List.of_mem_filter h2
  · rw [getAudit_page_eq]
    exact List.Pairwise.sublist (List.take_sublist _ _) (sortByTimestampDesc_sorted _)
  · rw [getAudit_page_eq]
    exact List.length_take_le _ _
  · intro hlen
    rw [getAudit_page_eq]
    have hlen2 : (sortByTimestampDesc
        (st.auditLogs.filter (auditMatches action userId))).length ≤ limit.getD 50 := by
      rw [(sortByTimestampDesc_perm _).length_eq]
      exact hlen
    rw [List.take_of_length_le hlen2]
    exact sortByTimestampDesc_perm _
  · intro e1 e2 e3 h12 h23
    rw [getAudit_page_eq]
    have hf : (({ auditLogs := [e1, e2, e3] } : ServerState)).auditLogs.filter
        (auditMatches none none) = [e1, e2, e3] := by
      simp [auditMatches]
    rw [hf, sortDesc_three e1 e2 e3 h12 h23]
    rfl

/-- Witness for C8: the two-entry demo log queried without filters is sorted
newest first, and a three-entry log with limit 2 returns exactly the latest
two entries. -/
theorem getAudit_query_spec_witness :
    TsSorted (getAudit stTwoLogs none none none).1.1 ∧
    ((stTwoLogs.auditLogs.filter (auditMatches none none)).length ≤
        (none : Option Nat).getD 50 →
      ((getAudit stTwoLogs none none none).1.1).Perm
        (stTwoLogs.auditLogs.filter (auditMatches none none))) ∧
    (getAudit { auditLogs := [auditEarly, auditLate, auditLatest] } none none
      (some 2)).1.1 = [auditLatest, auditLate] :=
  ⟨(getAudit_query_spec stTwoLogs none none none).2.1,
   (getAudit_query_spec stTwoLogs none none none).2.2.2.1,
   (getAudit_query_spec stTwoLogs none none none).2.2.2.2 auditEarly auditLate
     auditLatest (by decide) (by decide)⟩

/-- A store holding exactly the fresh demo document under its id. -/
def stOneDoc : ServerState := { camDocuments := [(("doc-1" : String), docFresh)] }

/-- C9 counterexample: the document listing does not recompute status from
the clock. The fresh demo document uploaded at instant 0 has derived progress
100 at instant 300000 (five minutes later), yet if no status call has been
made, the listing still reports the stored status `processing` rather than
the recomputed `completed`. -/
theorem listDocuments_stale_status_counterexample :
    progressOf docFresh 300000 = 100 ∧
    (listDocuments stOneDoc).map (fun s => s.status) = [("processing")] := by
  refine ⟨by decide, by decide⟩

/-- C9 amended: `get-status` derives the reported status from elapsed time,
but `list-documents` projects the stored `status` field, which lags: it stays
`processing` until some status call first observes completion and persists
`completed` into the record, after which the listing reports `completed`. -/
theorem listDocuments_reports_stored_status (st : ServerState)
    (documentId : String) (doc : CamDocument) (now : Nat)
    (hdoc : mapGet st.camDocuments documentId = some doc) :
    (summarize doc).status = doc.status ∧
    summarize doc ∈ listDocuments st ∧
    (progressOf doc now = 100 → doc.matchedForms = none →
      mapGet (getStatus st documentId now).2.camDocuments documentId =
        some { doc with
                 matchedForms := some (mockLegalFormMatching doc)
                 status := "completed" } ∧
      summarize { doc with
                    matchedForms := some (mockLegalFormMatching doc)
                    status := "completed" } ∈
        listDocuments (getStatus st documentId now).2 ∧
      (summarize { doc with
                     matchedForms := some (mockLegalFormMatching doc)
                     status := "completed" }).status = "completed") := by
  refine ⟨rfl, ?_, ?_⟩
  · have hmem : (documentId, doc) ∈ st.camDocuments := mapGet_mem hdoc
    exact List.mem_map.mpr ⟨(documentId, doc), hmem, rfl⟩
  · intro hp hn
    have h1 : getStatus st documentId now =
        (.ok (getStatusStep doc now).1,
          { st with camDocuments :=
              mapSet st.camDocuments documentId (getStatusStep doc now).2 }) := by
      unfold getStatus
      rw [hdoc]
    have h2 : (getStatusStep doc now).2 =
        { doc with
            matchedForms := some (mockLegalFormMatching doc)
            status := "completed" } := by
      rw [getStatusStep_first_complete doc now hn hp]
    have h3 : mapGet (getStatus st documentId now).2.camDocuments documentId =
        some { doc with
                 matchedForms := some (mockLegalFormMatching doc)
                 status := "completed" } := by
      rw [h1]
      simp only
      rw [← h2]
      exact mapGet_mapSet_self _ _ _
    refine ⟨h3, ?_, rfl⟩
    have hmem2 : (documentId,
        ({ doc with
             matchedForms := some (mockLegalFormMatching doc)
             status := "completed" } : CamDocument)) ∈
        (getStatus st documentId now).2.camDocuments := mapGet_mem h3
    exact List.mem_map.mpr ⟨_, hmem2, rfl⟩

/-- Witness for C9 (amended): the demo store at five minutes: the listing
projects the stored status; after the first completing status call the stored
record under `doc-1` is completed and so listed. -/
theorem listDocuments_reports_stored_status_witness :
    (summarize docFresh).status = docFresh.status ∧
    summarize docFresh ∈ listDocuments stOneDoc ∧
    (progressOf docFresh 300000 = 100 → docFresh.matchedForms = none →
      mapGet (getStatus stOneDoc ("doc-1") 300000).2.camDocuments ("doc-1") =
        some { docFresh with
                 matchedForms := some (mockLegalFormMatching docFresh)
                 status := "completed" } ∧
      summarize { docFresh with
                    matchedForms := some (mockLegalFormMatching docFresh)
                    status := "completed" } ∈
        listDocuments (getStatus stOneDoc ("doc-1") 300000).2 ∧
      (summarize { docFresh with
                     matchedForms := some (mockLegalFormMatching docFresh)
                     status := "completed" }).status = "completed") :=
  listDocuments_reports_stored_status stOneDoc ("doc-1") docFresh 300000 rfl
